import Mathlib

/-!
Verification of `rnaseqlib/rpkm/rpkm_utils.py` (read-quantification pipeline:
interval tagging, region counting, exon aggregation, RPKM computation).

The Python code is shallowly embedded: Python strings become `String`
(manipulated through executable `List Char` primitives that mirror the exact
semantics of `str.split`, `int()`, the `in` operator and slicing), Python
dicts become association lists preserving insertion order (with an explicit
model of `defaultdict(int)` item access, which inserts a default on reads of
missing keys), subprocess/file-system effects become explicit state and event
traces, and `sys.exit` / uncaught exceptions become an `Outcome` type.
-/

/-! ## Python string primitives -/

/-- Occurrence search: the characters strictly before the first occurrence of
`sep` in `l`, and the remainder strictly after that occurrence; `none` when
`sep` does not occur.  (For nonempty `sep` this is the decomposition that
`str.split` consumes one step of.) -/
def breakOnSep (sep : List Char) : List Char → Option (List Char × List Char)
  | [] => none
  | x :: xs =>
    if sep.isPrefixOf (x :: xs) then some ([], (x :: xs).drop sep.length)
    else
      match breakOnSep sep xs with
      | none => none
      | some (pre, post) => some (x :: pre, post)

/-- Fuel-indexed splitting; with fuel above `l.length` and a nonempty
separator this is Python `l.split(sep)`. -/
def chSplitN : Nat → List Char → List Char → List (List Char)
  | 0, _, l => [l]
  | fuel + 1, sep, l =>
    match breakOnSep sep l with
    | none => [l]
    | some (pre, post) => pre :: chSplitN fuel sep post

/-- Python `str.split(sep)` for a nonempty separator, over character lists. -/
def chSplit (sep l : List Char) : List (List Char) :=
  chSplitN (l.length + 1) sep l

/-- Python `s.split(sep)` on strings (nonempty separator). -/
def pySplit (sep s : String) : List String :=
  (chSplit sep.data s.data).map String.mk

/-- Python `needle in hay` (contiguous substring test). -/
def containsSub (hay needle : List Char) : Bool :=
  match hay with
  | [] => needle.isEmpty
  | _ :: t => needle.isPrefixOf hay || containsSub t needle

/-- Python `int(s)` restricted to an all-digit string: `none` models the
`ValueError` raised on anything else (in particular on `""`). -/
def chNat? (l : List Char) : Option Nat :=
  if l.isEmpty then none
  else
    l.foldl
      (fun acc c =>
        match acc with
        | none => none
        | some n => if c.isDigit then some (n * 10 + (c.toNat - 48)) else none)
      (some 0)

/-- Python `int(s)` with an optional sign. -/
def chInt? (l : List Char) : Option Int :=
  match l with
  | '-' :: rest => (chNat? rest).map (fun n => -(n : Int))
  | '+' :: rest => (chNat? rest).map (fun n => (n : Int))
  | _ => (chNat? l).map (fun n => (n : Int))

/-- Decimal digits of `n`, most significant first (fuel-indexed helper). -/
def natStrN : Nat → Nat → List Char
  | 0, _ => []
  | fuel + 1, n =>
    if n < 10 then [Char.ofNat (48 + n)]
    else natStrN fuel (n / 10) ++ [Char.ofNat (48 + n % 10)]

/-- Python `str(n)` for a natural number. -/
def natStr (n : Nat) : List Char := natStrN (n + 1) n

/-- Python `str(i)` for an integer. -/
def intStr : Int → List Char
  | .ofNat n => natStr n
  | .negSucc n => '-' :: natStr (n + 1)

/-- Python `os.path.basename` (the part after the last `/`). -/
def pyBasename (p : String) : String :=
  String.mk ((chSplit ['/'] p.data).getLastD [])

/-! ## Region counting (`output_rpkm_from_gff_aligned_bam`, lines 243-268)

`region_to_count = defaultdict(int)` is an insertion-ordered mapping from the
canonical RegionKey string to a count; `defaultdict` item access inserts the
default `0` when the key is missing, so reads can mutate the table. -/

/-- The `defaultdict(int)` table, insertion order preserved. -/
abbrev RegionCountTable := List (String × Nat)

/-- The count stored for `k` (0 when absent); a pure read, used in statements
about the table, not a model of `defaultdict` item access. -/
def getCount (t : RegionCountTable) (k : String) : Nat :=
  match t.lookup k with
  | some n => n
  | none => 0

/-- Python `t[k]` on a `defaultdict(int)`: the value, and the table after the
access (the key is inserted with value 0 when it was missing). -/
def dget (t : RegionCountTable) (k : String) : Nat × RegionCountTable :=
  match t with
  | [] => (0, [(k, 0)])
  | (k', v) :: rest =>
    if k' = k then (v, (k', v) :: rest)
    else
      let r := dget rest k
      (r.1, (k', v) :: r.2)

/-- Python `t[k] += 1` on a `defaultdict(int)`. -/
def incr (t : RegionCountTable) (k : String) : RegionCountTable :=
  match t with
  | [] => [(k, 1)]
  | (k', v) :: rest =>
    if k' = k then (k', v + 1) :: rest else (k', v) :: incr rest k

/-- Lines 259-266: one `"gff:"`-introduced segment of the `YB` tag payload.
`region.split(",")[0].split(":")[0:2]` is unpacked into contig and coordinate
field (`none` models the `ValueError` when the colon split has fewer than two
pieces), `map(int, coord_field.split("-"))` into start and end (`none` when
there are not exactly two integer pieces), the start is moved back to 1-based
by adding 1, and the key `"%s:%s-%s" % (chrom, start, end)` is built. -/
def parseRegionKey (region : String) : Option String :=
  match chSplit [':'] ((chSplit [','] region.data).headD []) with
  | chrom :: coordField :: _ =>
    match chSplit ['-'] coordField with
    | [s, e] =>
      match chInt? s, chInt? e with
      | some rs, some re =>
        some (String.mk (chrom ++ ':' :: intStr (rs + 1) ++ '-' :: intStr re))
      | _, _ => none
    | _ => none
  | _ => none

/-- The inner loop of lines 258-268: parse each remaining segment and bump its
count; `none` models the Python exception aborting the whole run. -/
def processSegs : List String → RegionCountTable → Option RegionCountTable
  | [], t => some t
  | s :: ss, t =>
    match parseRegionKey s with
    | none => none
    | some k => processSegs ss (incr t k)

/-- Lines 256-268 for one read carrying the tag: split the payload on
`"gff:"`, drop the first segment (`[1:]`), then count each parsed region. -/
def processTagPayload (payload : String) (t : RegionCountTable) :
    Option RegionCountTable :=
  processSegs ((pySplit "gff:" payload).drop 1) t

/-- The RegionKeys a payload contributes: the parses of the segments after the
first (when every parse succeeds this matches what `processTagPayload`
counts). -/
def regionKeysOf (payload : String) : List String :=
  ((pySplit "gff:" payload).drop 1).filterMap parseRegionKey

/-- One alignment record as the counting pass sees it: `bam_read.opt("YB")`
either yields the tag payload or raises `KeyError` (`none`), in which case the
read is skipped (line 255). -/
structure BamRead where
  yb : Option String

/-- The streaming pass of lines 249-268 over the whole BAM. -/
def countReads : List BamRead → RegionCountTable → Option RegionCountTable
  | [], t => some t
  | r :: rs, t =>
    match r.yb with
    | none => countReads rs t
    | some payload =>
      match processTagPayload payload t with
      | none => none
      | some t' => countReads rs t'

/-! ## RPKM (`compute_rpkm`, lines 311-327)

Python float arithmetic is modelled as exact rational arithmetic; the
divisions the code performs are embedded verbatim. -/

/-- Lines 311-327, verbatim. -/
def compute_rpkm (region_count region_len num_total_reads : ℚ) : ℚ :=
  let region_kb := region_len / 1000
  let rpkm_num := region_count / region_kb
  let num_reads_per_million := num_total_reads / 1000000
  rpkm_num / num_reads_per_million

/-! ## Exon aggregation (`output_rpkm_from_gff_aligned_bam`, lines 269-298) -/

/-- Lines 280-285: `parsed_exon[0:-2]`, then if a `"."` is present,
`curr_exon.split(".")[1]` (the second dot-separated segment). -/
def normalizeExon (e : String) : String :=
  let c := e.data.take (e.data.length - 2)
  if c.contains '.' then String.mk (((chSplit ['.'] c).drop 1).headD [])
  else String.mk c

/-- Modelled from the spec words, for comparison with `normalizeExon`: strip
the 2-character strand suffix and, when the remainder contains the separator,
take only the portion after the FIRST such separator. -/
def normalizeExonSpec (e : String) : String :=
  let c := e.data.take (e.data.length - 2)
  if c.contains '.' then String.mk ((c.dropWhile (fun x => x != '.')).drop 1)
  else String.mk c

/-- One entry of `gene_info` in `const_exons.genes_to_exons`. -/
structure GeneInfo where
  gene_id : String
  exons : String

/-- The fields of the `const_exons` object the function reads: the gene list
and the `exon_lens` dict (raw exon identifier to length). -/
structure ConstExons where
  genes_to_exons : List GeneInfo
  exon_lens : List (String × Nat)

/-- One `rpkm_entry` dict (lines 294-297). -/
structure RpkmEntry where
  gene_id : String
  rpkm : ℚ
  counts : Nat
  exons : String
deriving DecidableEq

/-- Ways one gene iteration can abort the Python run. -/
inductive AggError where
  | keyError        -- `const_exons.exon_lens[exon]` on a missing exon
  | assertFailed    -- the line 290 assert
  | zeroDivision    -- float division by zero inside `compute_rpkm`
deriving DecidableEq

/-- Line 288's list comprehension: look every key up in the `exon_lens`
dict, `none` as soon as one lookup raises `KeyError`. -/
def lookupLens (exon_lens : List (String × Nat)) :
    List String → Option (List Nat)
  | [] => some []
  | e :: es =>
    match exon_lens.lookup e with
    | none => none
    | some v =>
      match lookupLens exon_lens es with
      | none => none
      | some vs => some (v :: vs)

/-- `exons.split(",")`: the keys used for the length lookups (line 288). -/
def geneLenKeys (g : GeneInfo) : List String := pySplit "," g.exons

/-- The `strandless_exons` list: the keys used for the count lookups
(lines 279-286). -/
def geneCountKeys (g : GeneInfo) : List String :=
  (geneLenKeys g).map normalizeExon

/-- One iteration of the gene loop (lines 272-298).  `.ok (t, none)` is the
`exons == "NA"` skip; otherwise the count lookups run left to right on the
`defaultdict` (threading the table), the length lookups may raise `KeyError`,
the line 290 assert compares the two list lengths, and `compute_rpkm` raises
`ZeroDivisionError` when the summed length (or the mapped-read total) is zero.
-/
def processGene (na_val : String) (exon_lens : List (String × Nat))
    (num_mapped : Nat) (t : RegionCountTable) (g : GeneInfo) :
    Except AggError (RegionCountTable × Option RpkmEntry) :=
  if g.exons = na_val then .ok (t, none)
  else
    let step := fun (p : List Nat × RegionCountTable) (s : String) =>
      let r := dget p.2 s
      (p.1 ++ [r.1], r.2)
    let cr := (geneCountKeys g).foldl step ([], t)
    let curr_counts := cr.1
    let t' := cr.2
    match lookupLens exon_lens (geneLenKeys g) with
    | none => .error .keyError
    | some curr_lens =>
      if curr_counts.length = curr_lens.length then
        if curr_lens.sum = 0 ∨ num_mapped = 0 then .error .zeroDivision
        else
          .ok (t', some
            { gene_id := g.gene_id,
              rpkm := compute_rpkm (curr_counts.sum : ℚ) (curr_lens.sum : ℚ)
                        (num_mapped : ℚ),
              counts := curr_counts.sum,
              exons := g.exons })
      else .error .assertFailed

/-- The gene loop of lines 271-298: fold `processGene` over the gene list,
collecting the `rpkm_table` entries and threading the region table. -/
def aggregateGenes (na_val : String) (ce : ConstExons) (num_mapped : Nat) :
    List GeneInfo → RegionCountTable → List RpkmEntry →
    Except AggError (RegionCountTable × List RpkmEntry)
  | [], t, acc => .ok (t, acc)
  | g :: gs, t, acc =>
    match processGene na_val ce.exon_lens num_mapped t g with
    | .error e => .error e
    | .ok (t', none) => aggregateGenes na_val ce num_mapped gs t' acc
    | .ok (t', some entry) => aggregateGenes na_val ce num_mapped gs t' (acc ++ [entry])

/-! ## The tagging pipeline (`map_bam2gff_subproc`, lines 116-217)

File-system state is the set of existing directories and files.  Subprocess
launches are recorded as events.  `sys.exit(n)` and an uncaught Python
exception both end the run without returning; they are kept apart in
`Outcome`. -/

/-- The directories and files that exist. -/
structure FsState where
  dirs : List String
  files : List String
deriving DecidableEq

/-- The environment one call observes: whether `utils.which("tagBam")`
resolves, the lines the tagBam|samtools pipe writes to stdout, and the
encoder (`samtools view -Shb`) exit status and combined output. -/
structure SubprocEnv where
  tagBamOnPath : Bool
  tagBamLines : List String
  bamReturncode : Int
  bamOutput : String

/-- Externally visible steps of a pipeline run. -/
inductive Event where
  | launchTagBam       -- the tagBam subprocess is started (line 156)
  | launchEncoder      -- the samtools BAM encoder is started (line 164)
  | skipRpkmTable      -- output_rpkm line 80: RPKM table found, skipped
  | mappedTable        -- output_rpkm line 92 returned an exons BAM path
  | outputFromBam      -- output_rpkm line 106: RPKM computation is invoked
deriving DecidableEq

/-- How a run ends. -/
inductive Outcome where
  | returned (path : String)   -- a normal `return`
  | exited (code : Nat)        -- `sys.exit(code)`
  | crashed                    -- an uncaught Python exception
deriving DecidableEq

/-- State, trace and outcome of a run. -/
structure RunResult where
  fs : FsState
  events : List Event
  outcome : Outcome
deriving DecidableEq

/-- Line 127: `os.path.join(output_dir, "bam2gff_%s" % gff_basename)`. -/
def outDirName (gff_filename output_dir : String) : String :=
  output_dir ++ "/bam2gff_" ++ pyBasename gff_filename

/-- Line 132: the destination path inside the scoped subdirectory. -/
def outFileName (bam_filename gff_filename output_dir : String) : String :=
  outDirName gff_filename output_dir ++ "/" ++ pyBasename bam_filename

/-- Line 176: `sam_read.split("\t")[0]`. -/
def lineReadName (line : String) : String :=
  String.mk (line.data.takeWhile (fun c => c != '\t'))

/-- Line 183: `sam_read.startswith("@")`. -/
def isHeaderLine (line : String) : Bool :=
  ['@'].isPrefixOf line.data

/-- Line 186: `gff_interval in sam_read` with `gff_interval = ":%s:" %
interval_label`. -/
def lineHasIntervalTag (interval_label line : String) : Bool :=
  containsSub line.data (':' :: interval_label.data ++ [':'])

/-- Counters accumulated by the relay loop of lines 170-190. -/
structure LoopCounts where
  num_headers : Nat
  num_hits : Nat
  num_skipped_reads : Nat
deriving DecidableEq

/-- The relay loop: reads with an empty name are dropped, header lines are
forwarded and counted, lines containing the interval marker are forwarded and
counted, anything else is dropped silently. -/
def countLines (interval_label : String) (lines : List String) : LoopCounts :=
  lines.foldl
    (fun c line =>
      if lineReadName line = "" then
        { c with num_skipped_reads := c.num_skipped_reads + 1 }
      else if isHeaderLine line then
        { c with num_headers := c.num_headers + 1 }
      else if lineHasIntervalTag interval_label line then
        { c with num_hits := c.num_hits + 1 }
      else c)
    ⟨0, 0, 0⟩

/-- Lines 116-217.  The scoped output directory is created before anything
else (lines 129-130); if the destination file already exists the path is
returned with no subprocess launched (lines 138-141); a missing `tagBam`
exits before any launch (lines 151-153).  Otherwise both processes are
launched (the encoder opens its `-o` target, so the destination file comes to
exist), the relay loop runs, and:
with zero forwarded headers line 196 reads `tagBam_retval` before its
assignment on line 205, so the run dies on an uncaught `NameError` (after
`logger.error("tagBam call failed.")`); with a nonzero encoder exit status
whose output does not contain `"truncated"` the run exits with code 1
(lines 208-216); in every other case the destination path is returned. -/
def map_bam2gff_subproc (env : SubprocEnv) (fs : FsState)
    (bam_filename gff_filename output_dir interval_label : String) :
    RunResult :=
  let d := outDirName gff_filename output_dir
  let fs1 : FsState :=
    if fs.dirs.contains d then fs else { fs with dirs := fs.dirs ++ [d] }
  let output_filename := outFileName bam_filename gff_filename output_dir
  if fs1.files.contains output_filename then
    { fs := fs1, events := [], outcome := .returned output_filename }
  else if env.tagBamOnPath = false then
    { fs := fs1, events := [], outcome := .exited 1 }
  else
    let counts := countLines interval_label env.tagBamLines
    let fs2 := { fs1 with files := fs1.files ++ [output_filename] }
    let evs := [Event.launchTagBam, Event.launchEncoder]
    if counts.num_headers = 0 then
      { fs := fs2, events := evs, outcome := .crashed }
    else if env.bamReturncode ≠ 0 then
      if containsSub env.bamOutput.data "truncated".data then
        { fs := fs2, events := evs, outcome := .returned output_filename }
      else
        { fs := fs2, events := evs, outcome := .exited 1 }
    else
      { fs := fs2, events := evs, outcome := .returned output_filename }

/-! ## The per-sample driver (`output_rpkm`, lines 57-113) -/

/-- What one entry of `rna_base.tables_to_const_exons` supplies to the loop
body: the table name, the constitutive-exon GFF path, the subprocess
environment of the tagging call, the reads of the exons BAM it produces, and
the exon tables. -/
structure TableEnv where
  table_name : String
  gff_filename : String
  subproc : SubprocEnv
  bamReads : List BamRead
  const_exons : ConstExons

/-- Lines 220-308 as invoked by the driver: stream-count the tagged BAM, then
aggregate genes; `none` is an uncaught exception in either phase. -/
def output_rpkm_from_gff_aligned_bam (reads : List BamRead)
    (num_mapped : Nat) (ce : ConstExons) :
    Option (RegionCountTable × List RpkmEntry) :=
  match countReads reads [] with
  | none => none
  | some t =>
    match aggregateGenes "NA" ce num_mapped ce.genes_to_exons t [] with
    | .error _ => none
    | .ok r => some r

/-- The loop of lines 76-110, one table at a time.  `last` is the leaked loop
variable `rpkm_output_filename` that line 113 returns: with no iteration at
all the final `return` raises `NameError` (`.crashed`). -/
def output_rpkm_go (output_dir ribosub_bam : String) (num_mapped : Nat) :
    List TableEnv → FsState → List Event → Option String → RunResult
  | [], fs, evs, last =>
    match last with
    | some p => { fs := fs, events := evs, outcome := .returned p }
    | none => { fs := fs, events := evs, outcome := .crashed }
  | tbl :: rest, fs, evs, _ =>
    let rpkm_output_filename := output_dir ++ "/" ++ tbl.table_name ++ ".rpkm"
    if fs.files.contains rpkm_output_filename then
      output_rpkm_go output_dir ribosub_bam num_mapped rest fs
        (evs ++ [Event.skipRpkmTable]) (some rpkm_output_filename)
    else
      let bam2gff_outdir := output_dir ++ "/bam2gff_const_exons"
      let fs1 : FsState :=
        if fs.dirs.contains bam2gff_outdir then fs
        else { fs with dirs := fs.dirs ++ [bam2gff_outdir] }
      let sub := map_bam2gff_subproc tbl.subproc fs1 ribosub_bam
        tbl.gff_filename bam2gff_outdir "gff"
      match sub.outcome with
      | .exited c => { fs := sub.fs, events := evs ++ sub.events, outcome := .exited c }
      | .crashed => { fs := sub.fs, events := evs ++ sub.events, outcome := .crashed }
      | .returned _ =>
        let evs1 := evs ++ sub.events ++ [Event.mappedTable]
        if num_mapped = 0 then
          { fs := sub.fs, events := evs1, outcome := .exited 1 }
        else
          let evs2 := evs1 ++ [Event.outputFromBam]
          match output_rpkm_from_gff_aligned_bam tbl.bamReads num_mapped
            tbl.const_exons with
          | none => { fs := sub.fs, events := evs2, outcome := .crashed }
          | some _ =>
            let fs2 := { sub.fs with files := sub.fs.files ++ [rpkm_output_filename] }
            output_rpkm_go output_dir ribosub_bam num_mapped rest fs2 evs2
              (some rpkm_output_filename)

/-- Lines 57-113: the whole per-sample driver. -/
def output_rpkm (tables : List TableEnv) (output_dir ribosub_bam : String)
    (num_mapped : Nat) (fs : FsState) : RunResult :=
  output_rpkm_go output_dir ribosub_bam num_mapped tables fs [] none

/-- The strand-stripping step alone, `parsed_exon[0:-2]` (line 281), as
characters. -/
def stripStrand (e : String) : List Char :=
  e.data.take (e.data.length - 2)

/-- One table extends another without changing any count: every key reads the
same count, every old entry is still present, and every entry that is new
carries the `defaultdict` default 0. -/
def TableExtends (t t' : RegionCountTable) : Prop :=
  (∀ k, getCount t' k = getCount t k) ∧
  (∀ kv, kv ∈ t → kv ∈ t') ∧
  (∀ kv, kv ∈ t' → kv ∈ t ∨ kv.2 = 0)

/-! ## Counting lemmas -/

theorem getCount_nil (k : String) : getCount [] k = 0 := rfl

theorem getCount_cons (k0 : String) (v : Nat) (tl : RegionCountTable) (k : String) :
    getCount ((k0, v) :: tl) k = if k0 = k then v else getCount tl k := by
  by_cases h : k0 = k
  · subst h; simp [getCount, List.lookup]
  · have hb : (k == k0) = false := beq_eq_false_iff_ne.mpr (fun hh => h hh.symm)
    simp [getCount, List.lookup, hb, h]

theorem incr_nil (k : String) : incr [] k = [(k, 1)] := rfl

theorem incr_cons (k0 : String) (v : Nat) (tl : RegionCountTable) (k : String) :
    incr ((k0, v) :: tl) k =
      if k0 = k then (k0, v + 1) :: tl else (k0, v) :: incr tl k := rfl

/-- Bumping key `k` adds exactly one to `k`'s count and nothing to others. -/
theorem getCount_incr (t : RegionCountTable) (k k' : String) :
    getCount (incr t k) k' = getCount t k' + if k = k' then 1 else 0 := by
  induction t with
  | nil =>
    by_cases h : k = k' <;>
      simp [incr_nil, getCount_cons, getCount_nil, h]
  | cons hd tl ih =>
    obtain ⟨k0, v⟩ := hd
    rw [incr_cons]
    by_cases h0 : k0 = k
    · subst h0
      rw [if_pos rfl, getCount_cons, getCount_cons]
      by_cases h1 : k0 = k'
      · subst h1; simp
      · simp [h1]
    · rw [if_neg h0, getCount_cons, getCount_cons]
      by_cases h1 : k0 = k'
      · subst h1
        rw [if_pos rfl, if_pos rfl, if_neg (fun hh => h0 hh.symm)]
        simp
      · rw [if_neg h1, if_neg h1, ih]

/-- The inner counting loop adds, for every key, exactly the number of parsed
segments that yield that key. -/
theorem processSegs_getCount (ss : List String) (t t' : RegionCountTable)
    (h : processSegs ss t = some t') (k : String) :
    getCount t' k = getCount t k + (ss.filterMap parseRegionKey).count k := by
  induction ss generalizing t with
  | nil =>
    simp only [processSegs, Option.some.injEq] at h
    subst h
    simp
  | cons s ss ih =>
    rw [processSegs] at h
    cases hp : parseRegionKey s with
    | none => rw [hp] at h; cases h
    | some key =>
      rw [hp] at h
      rw [ih _ h, getCount_incr, List.filterMap_cons, hp, List.count_cons]
      by_cases hk : key = k
      · simp [hk]
        omega
      · have hb : (key == k) = false := beq_eq_false_iff_ne.mpr hk
        simp [hk, hb]

/-- Claim C1: a read's interval-overlap tag payload is split on the marker
`"gff:"`; the first segment is discarded; each remaining segment is parsed
into contig and 0-based coordinates, the start converted to 1-based by adding
1; the canonical key `"contig:start-end"` gets its count incremented by
exactly one per parsed segment, so one read bumps several RegionKeys when it
overlaps several intervals (the last conjunct shows two keys reaching
count 1 from a single payload). -/
theorem C1_region_counter (payload : String) (t t' : RegionCountTable)
    (h : processTagPayload payload t = some t') (k : String) :
    getCount t' k = getCount t k + (regionKeysOf payload).count k ∧
    parseRegionKey "chr1:99-200,gene=abc" = some "chr1:100-200" ∧
    processTagPayload "preamble gff:chr2:9-20,x gff:chr3:0-5,y" [] =
      some [("chr2:10-20", 1), ("chr3:1-5", 1)] :=
  ⟨processSegs_getCount _ _ _ h k, by decide, by decide⟩

/-- Claim C1 witness: the theorem applied to a concrete two-interval payload
starting from the empty table. -/
theorem C1_region_counter_witness :
    getCount [("chr2:10-20", 1), ("chr3:1-5", 1)] "chr2:10-20" =
      getCount [] "chr2:10-20" +
        (regionKeysOf "preamble gff:chr2:9-20,x gff:chr3:0-5,y").count
          "chr2:10-20" :=
  (C1_region_counter "preamble gff:chr2:9-20,x gff:chr3:0-5,y" []
    [("chr2:10-20", 1), ("chr3:1-5", 1)] (by decide) "chr2:10-20").1

/-- Claim C3: `compute_rpkm` is exactly the claimed pure formula, and takes
the claimed values at the two cited inputs. -/
theorem C3_compute_rpkm (c l t : ℚ) (hl : 0 < l) (ht : 0 < t) :
    compute_rpkm c l t = (c / (l / 1000)) / (t / 1000000) ∧
    compute_rpkm 10 2000 1000000 = 5 ∧
    compute_rpkm 0 1000 1000000 = 0 :=
  ⟨rfl, by norm_num [compute_rpkm], by norm_num [compute_rpkm]⟩

/-- Claim C3 witness: the theorem applied at the cited concrete input. -/
theorem C3_compute_rpkm_witness : compute_rpkm 10 2000 1000000 = 5 :=
  (C3_compute_rpkm 10 2000 1000000 (by norm_num) (by norm_num)).2.1

/-! ## Split characterization for single-character separators -/

/-- When `c` does not occur, `takeWhile (x != c)` keeps everything. -/
theorem takeWhile_ne_of_not_contains (c : Char) (l : List Char)
    (h : l.contains c = false) : l.takeWhile (fun x => x != c) = l := by
  induction l with
  | nil => rfl
  | cons x xs ih =>
    simp only [List.contains_cons, Bool.or_eq_false_iff] at h
    obtain ⟨h1, h2⟩ := h
    simp only [List.takeWhile_cons]
    rw [if_pos, ih h2]
    simpa [bne] using (fun hh : x = c => by simp [hh] at h1)

/-- First-occurrence decomposition for a one-character separator. -/
theorem breakOnSep_single (c : Char) (l : List Char) :
    breakOnSep [c] l =
      if c ∈ l then
        some (l.takeWhile (fun x => x != c),
              (l.dropWhile (fun x => x != c)).drop 1)
      else none := by
  induction l with
  | nil => simp [breakOnSep]
  | cons x xs ih =>
    rw [breakOnSep]
    by_cases hx : c = x
    · subst hx
      rw [if_pos (by simp [List.isPrefixOf])]
      simp [List.takeWhile_cons, List.dropWhile_cons]
    · have hb : (c == x) = false := beq_eq_false_iff_ne.mpr hx
      have hb' : (x == c) = false := beq_eq_false_iff_ne.mpr (fun hh => hx hh.symm)
      rw [if_neg (by simp [List.isPrefixOf, hb]), ih]
      by_cases hc : c ∈ xs
      · rw [if_pos hc, if_pos (by simp [hc])]
        simp [List.takeWhile_cons, List.dropWhile_cons, hb', bne]
      · rw [if_neg hc, if_neg (by simp [hx, hc])]

/-- The head of a one-character split is the prefix before the first
occurrence, for any positive fuel. -/
theorem chSplitN_single_headD (c : Char) (fuel : Nat) (l : List Char)
    (hf : 1 ≤ fuel) :
    (chSplitN fuel [c] l).headD [] = l.takeWhile (fun x => x != c) := by
  obtain ⟨f, rfl⟩ : ∃ f, fuel = f + 1 := ⟨fuel - 1, by omega⟩
  rw [chSplitN, breakOnSep_single]
  by_cases hc : c ∈ l
  · simp [hc]
  · simp only [if_neg hc]
    exact (takeWhile_ne_of_not_contains c l (by simpa using hc)).symm

/-- The second element of a one-character split (Python `split(sep)[1]`) is
the portion strictly between the first and second occurrences of the
separator. -/
theorem chSplit_single_second (c : Char) (l : List Char) (h : c ∈ l) :
    ((chSplit [c] l).drop 1).headD [] =
      ((l.dropWhile (fun x => x != c)).drop 1).takeWhile (fun x => x != c) := by
  have hlen : 1 ≤ l.length := by
    cases l with
    | nil => cases h
    | cons x xs => simp
  rw [chSplit]
  rw [show l.length + 1 = (l.length - 1) + 1 + 1 by omega]
  rw [chSplitN, breakOnSep_single, if_pos h]
  simp only [List.drop_succ_cons, List.drop_zero]
  exact chSplitN_single_headD c _ _ (by omega)

/-- Claim C2 (amended): after stripping the 2-character strand suffix, a
remainder containing the separator is normalized to the second dot-separated
segment, i.e. the portion strictly between the first and the second
separator (Python `split(".")[1]`); this agrees with taking the whole portion
after the first separator exactly when that portion holds no further
separator.  `"chr1.exon5_+"` normalizes to `"exon5"` for the count lookup
while the length lookup uses the unmodified identifier. -/
theorem C2_exon_normalization (e : String)
    (h : (stripStrand e).contains '.' = true) :
    normalizeExon e =
      String.mk ((((stripStrand e).dropWhile (fun x => x != '.')).drop 1).takeWhile
        (fun x => x != '.')) ∧
    (((((stripStrand e).dropWhile (fun x => x != '.')).drop 1).contains '.') = false →
      normalizeExon e = normalizeExonSpec e) ∧
    normalizeExon "chr1.exon5_+" = "exon5" ∧
    geneLenKeys ⟨"g", "chr1.exon5_+"⟩ = ["chr1.exon5_+"] ∧
    geneCountKeys ⟨"g", "chr1.exon5_+"⟩ = ["exon5"] := by
  have hm : '.' ∈ stripStrand e := by simpa using h
  have h1 : normalizeExon e =
      String.mk ((((stripStrand e).dropWhile (fun x => x != '.')).drop 1).takeWhile
        (fun x => x != '.')) := by
    show (if (stripStrand e).contains '.' then
        String.mk (((chSplit ['.'] (stripStrand e)).drop 1).headD [])
      else String.mk (stripStrand e)) = _
    rw [if_pos h]
    exact congrArg String.mk (chSplit_single_second '.' (stripStrand e) hm)
  refine ⟨h1, ?_, by decide, by decide, by decide⟩
  intro h2
  rw [h1]
  show _ = (if (stripStrand e).contains '.' then
      String.mk (((stripStrand e).dropWhile (fun x => x != '.')).drop 1)
    else String.mk (stripStrand e))
  rw [if_pos h]
  exact congrArg String.mk (takeWhile_ne_of_not_contains '.' _ h2)

/-- Claim C2 witness: the theorem applied to the cited identifier
`"chr1.exon5_+"`. -/
theorem C2_exon_normalization_witness : normalizeExon "chr1.exon5_+" = "exon5" :=
  (C2_exon_normalization "chr1.exon5_+" (by decide)).2.2.1

/-- Claim C2 counterexample: on `"gene.ab.cd_+"` the code keeps only the
segment between the first and second dots (`"ab"`), not the portion after the
first dot (`"ab.cd"`) that the claim describes. -/
theorem C2_exon_normalization_counterexample :
    normalizeExon "gene.ab.cd_+" = "ab" ∧
    normalizeExonSpec "gene.ab.cd_+" = "ab.cd" ∧
    ¬ normalizeExon "gene.ab.cd_+" = normalizeExonSpec "gene.ab.cd_+" := by
  refine ⟨by decide, by decide, by decide⟩

/-! ## Lemmas about the aggregation phase -/

/-- Each count lookup appends exactly one element to the accumulated list. -/
theorem dget_fold_length (keys : List String) (p : List Nat × RegionCountTable) :
    ((List.foldl
      (fun (p : List Nat × RegionCountTable) (s : String) =>
        (p.1 ++ [(dget p.2 s).1], (dget p.2 s).2)) p keys).1).length =
      p.1.length + keys.length := by
  induction keys generalizing p with
  | nil => simp
  | cons s ks ih =>
    rw [List.foldl_cons, ih]
    simp
    omega

/-- A successful length-lookup pass returns one length per key. -/
theorem lookupLens_length (el : List (String × Nat)) (keys : List String)
    (vs : List Nat) (h : lookupLens el keys = some vs) :
    vs.length = keys.length := by
  induction keys generalizing vs with
  | nil => simp [lookupLens] at h; simp [← h]
  | cons k ks ih =>
    rw [lookupLens] at h
    cases h1 : el.lookup k with
    | none => rw [h1] at h; cases h
    | some v =>
      rw [h1] at h
      cases h2 : lookupLens el ks with
      | none => rw [h2] at h; cases h
      | some ws =>
        rw [h2] at h
        cases h
        simp [ih ws h2]

/-- Claim C8: the count-lookup key list and the length-lookup key list have
the same length for every gene (they are the same exon list under two key
transforms), and consequently the fatal line 290 assert can never fire:
`processGene` never returns the internal-consistency error. -/
theorem C8_lookup_lists_match (na : String) (exon_lens : List (String × Nat))
    (num_mapped : Nat) (t : RegionCountTable) (g : GeneInfo) :
    (geneCountKeys g).length = (geneLenKeys g).length ∧
    processGene na exon_lens num_mapped t g ≠ .error .assertFailed := by
  refine ⟨by simp [geneCountKeys], ?_⟩
  unfold processGene
  by_cases hna : g.exons = na
  · simp [hna]
  · rw [if_neg hna]
    simp only []
    cases hl : lookupLens exon_lens (geneLenKeys g) with
    | none => simp
    | some lens =>
      simp only []
      have hc :
          ((List.foldl
            (fun (p : List Nat × RegionCountTable) (s : String) =>
              (p.1 ++ [(dget p.2 s).1], (dget p.2 s).2)) ([], t)
            (geneCountKeys g)).1).length = lens.length := by
        rw [dget_fold_length, lookupLens_length _ _ _ hl]
        simp [geneCountKeys]
      rw [if_pos hc]
      by_cases hz : lens.sum = 0 ∨ num_mapped = 0
      · rw [if_pos hz]
        simp
      · rw [if_neg hz]
        simp

/-- A `defaultdict` read returns the stored count (0 when absent). -/
theorem dget_fst (t : RegionCountTable) (k : String) :
    (dget t k).1 = getCount t k := by
  induction t with
  | nil => simp [dget, getCount]
  | cons hd tl ih =>
    obtain ⟨k0, v⟩ := hd
    rw [dget, getCount_cons]
    by_cases h : k0 = k
    · simp [h]
    · simp [h, ih, getCount]

/-- A `defaultdict` read changes no count. -/
theorem getCount_dget (t : RegionCountTable) (k k' : String) :
    getCount (dget t k).2 k' = getCount t k' := by
  induction t with
  | nil =>
    simp only [dget]
    rw [getCount_cons]
    by_cases h : k = k'
    · simp [h, getCount_nil]
    · simp [h, getCount_nil]
  | cons hd tl ih =>
    obtain ⟨k0, v⟩ := hd
    rw [dget]
    by_cases h : k0 = k
    · simp [h]
    · simp only [if_neg h]
      rw [getCount_cons, getCount_cons, ih]

/-- A `defaultdict` read keeps every existing entry. -/
theorem mem_dget_of_mem (t : RegionCountTable) (k : String)
    (kv : String × Nat) (h : kv ∈ t) : kv ∈ (dget t k).2 := by
  induction t with
  | nil => cases h
  | cons hd tl ih =>
    obtain ⟨k0, v⟩ := hd
    rw [dget]
    by_cases h0 : k0 = k
    · simpa [h0] using h
    · simp only [if_neg h0]
      rcases List.mem_cons.mp h with h1 | h1
      · exact List.mem_cons.mpr (Or.inl h1)
      · exact List.mem_cons.mpr (Or.inr (ih h1))

/-- Any entry present after a `defaultdict` read was either already there or
is the freshly inserted default 0. -/
theorem mem_dget (t : RegionCountTable) (k : String) (kv : String × Nat)
    (h : kv ∈ (dget t k).2) : kv ∈ t ∨ kv.2 = 0 := by
  induction t with
  | nil =>
    simp only [dget] at h
    rcases List.mem_cons.mp h with h1 | h1
    · right; rw [h1]
    · cases h1
  | cons hd tl ih =>
    obtain ⟨k0, v⟩ := hd
    rw [dget] at h
    by_cases h0 : k0 = k
    · left; simpa [h0] using h
    · simp only [if_neg h0] at h
      rcases List.mem_cons.mp h with h1 | h1
      · left; exact List.mem_cons.mpr (Or.inl h1)
      · rcases ih h1 with h2 | h2
        · left; exact List.mem_cons.mpr (Or.inr h2)
        · right; exact h2

theorem tableExtends_refl (t : RegionCountTable) : TableExtends t t :=
  ⟨fun _ => rfl, fun _ h => h, fun _ h => Or.inl h⟩

theorem tableExtends_trans (t1 t2 t3 : RegionCountTable)
    (h12 : TableExtends t1 t2) (h23 : TableExtends t2 t3) :
    TableExtends t1 t3 := by
  obtain ⟨a12, b12, c12⟩ := h12
  obtain ⟨a23, b23, c23⟩ := h23
  refine ⟨fun k => (a23 k).trans (a12 k), fun kv h => b23 kv (b12 kv h), ?_⟩
  intro kv h
  rcases c23 kv h with h1 | h1
  · exact c12 kv h1
  · exact Or.inr h1

theorem tableExtends_dget (t : RegionCountTable) (k : String) :
    TableExtends t (dget t k).2 :=
  ⟨fun k' => getCount_dget t k k', fun kv h => mem_dget_of_mem t k kv h,
   fun kv h => mem_dget t k kv h⟩

/-- The whole count-lookup fold only extends the table with defaults. -/
theorem tableExtends_dget_fold (keys : List String)
    (p : List Nat × RegionCountTable) :
    TableExtends p.2
      ((List.foldl
        (fun (p : List Nat × RegionCountTable) (s : String) =>
          (p.1 ++ [(dget p.2 s).1], (dget p.2 s).2)) p keys).2) := by
  induction keys generalizing p with
  | nil => exact tableExtends_refl _
  | cons s ks ih =>
    rw [List.foldl_cons]
    exact tableExtends_trans _ _ _ (tableExtends_dget p.2 s) (ih _)

/-- One gene iteration only extends the region table with defaults. -/
theorem processGene_tableExtends (na : String) (el : List (String × Nat))
    (nm : Nat) (t : RegionCountTable) (g : GeneInfo)
    (t' : RegionCountTable) (e : Option RpkmEntry)
    (h : processGene na el nm t g = .ok (t', e)) : TableExtends t t' := by
  unfold processGene at h
  by_cases hna : g.exons = na
  · rw [if_pos hna] at h
    cases h
    exact tableExtends_refl t
  · rw [if_neg hna] at h
    simp only [] at h
    cases hl : lookupLens el (geneLenKeys g) with
    | none => rw [hl] at h; cases h
    | some lens =>
      rw [hl] at h
      simp only [] at h
      by_cases hc :
          ((List.foldl
            (fun (p : List Nat × RegionCountTable) (s : String) =>
              (p.1 ++ [(dget p.2 s).1], (dget p.2 s).2)) ([], t)
            (geneCountKeys g)).1).length = lens.length
      · rw [if_pos hc] at h
        by_cases hz : lens.sum = 0 ∨ nm = 0
        · rw [if_pos hz] at h; cases h
        · rw [if_neg hz] at h
          cases h
          exact tableExtends_dget_fold (geneCountKeys g) ([], t)
      · rw [if_neg hc] at h; cases h

/-- The gene loop only extends the region table with defaults. -/
theorem aggregateGenes_tableExtends (na : String) (ce : ConstExons) (nm : Nat)
    (gs : List GeneInfo) (t : RegionCountTable) (acc : List RpkmEntry)
    (t' : RegionCountTable) (es : List RpkmEntry)
    (h : aggregateGenes na ce nm gs t acc = .ok (t', es)) :
    TableExtends t t' := by
  induction gs generalizing t acc with
  | nil =>
    rw [aggregateGenes] at h
    cases h
    exact tableExtends_refl _
  | cons g gs ih =>
    rw [aggregateGenes] at h
    cases hg : processGene na ce.exon_lens nm t g with
    | error e0 => rw [hg] at h; cases h
    | ok r =>
      obtain ⟨t1, e1⟩ := r
      rw [hg] at h
      have h1 := processGene_tableExtends na ce.exon_lens nm t g t1 e1 hg
      cases e1 with
      | none => exact tableExtends_trans _ _ _ h1 (ih _ _ h)
      | some entry => exact tableExtends_trans _ _ _ h1 (ih _ _ h)

/-- Claim C9 (amended): the aggregation phase preserves every key's count and
every existing entry of the RegionCountTable; however, because the count
lookups go through `defaultdict` item access, a lookup of an absent key
inserts that key with count 0, so the table can gain zero-valued entries
during aggregation (see the counterexample). -/
theorem C9_aggregation_table (na : String) (ce : ConstExons) (nm : Nat)
    (gs : List GeneInfo) (t t' : RegionCountTable)
    (h : (aggregateGenes na ce nm gs t []).toOption.map Prod.fst = some t') :
    (∀ k, getCount t' k = getCount t k) ∧
    (∀ kv, kv ∈ t → kv ∈ t') ∧
    (∀ kv, kv ∈ t' → kv ∈ t ∨ kv.2 = 0) := by
  cases hagg : aggregateGenes na ce nm gs t [] with
  | error e => rw [hagg] at h; cases h
  | ok r =>
    obtain ⟨t1, es⟩ := r
    rw [hagg] at h
    simp only [Except.toOption, Option.map, Option.some.injEq] at h
    subst h
    exact aggregateGenes_tableExtends na ce nm gs t [] t1 es hagg

/-- Claim C9 witness: the theorem applied to a one-gene run whose count
lookup inserts the missing key `"exonX"` with value 0; the count of the
pre-existing key `"a"` is unchanged. -/
theorem C9_aggregation_table_witness :
    getCount [("a", 2), ("exonX", 0)] "a" = getCount [("a", 2)] "a" :=
  (C9_aggregation_table "NA" ⟨[⟨"g1", "chr1.exonX_+"⟩], [("chr1.exonX_+", 100)]⟩
    1 [⟨"g1", "chr1.exonX_+"⟩] [("a", 2)] [("a", 2), ("exonX", 0)]
    (by decide)).1 "a"

/-- Claim C9 counterexample: aggregating a gene whose normalized exon key
`"exonX"` is absent from the table adds the entry `("exonX", 0)`: the table
after the aggregation phase differs from the table before it, so the
RegionCountTable is not immutable after the streaming pass. -/
theorem C9_aggregation_table_counterexample :
    (aggregateGenes "NA" ⟨[⟨"g1", "chr1.exonX_+"⟩], [("chr1.exonX_+", 100)]⟩ 1
        [⟨"g1", "chr1.exonX_+"⟩] [("a", 2)] []).toOption.map Prod.fst =
      some [("a", 2), ("exonX", 0)] ∧
    ¬ [("a", 2), ("exonX", 0)] = [("a", 2)] :=
  ⟨by decide, by decide⟩

/-! ## Lemmas about the tagging pipeline -/

/-- Conditionally creating the scoped directory never touches the files. -/
theorem files_mkdir (fs : FsState) (d : String) :
    (if fs.dirs.contains d then fs
     else { fs with dirs := fs.dirs ++ [d] }).files = fs.files := by
  split <;> rfl

/-- After the conditional creation the scoped directory exists. -/
theorem dirs_mkdir_contains (fs : FsState) (d : String) :
    (if fs.dirs.contains d then fs
     else { fs with dirs := fs.dirs ++ [d] }).dirs.contains d = true := by
  split
  · assumption
  · simp

/-- Full description of the skip path (destination file already present):
nothing is launched, the destination path is returned, the files are
untouched, and the directories at most gain the scoped subdirectory. -/
theorem map_bam2gff_skip_spec (env : SubprocEnv) (fs : FsState)
    (bam gff outdir il : String)
    (hf : fs.files.contains (outFileName bam gff outdir) = true) :
    (map_bam2gff_subproc env fs bam gff outdir il).events = [] ∧
    (map_bam2gff_subproc env fs bam gff outdir il).outcome =
      .returned (outFileName bam gff outdir) ∧
    (map_bam2gff_subproc env fs bam gff outdir il).fs.files = fs.files ∧
    (map_bam2gff_subproc env fs bam gff outdir il).fs.dirs =
      (if fs.dirs.contains (outDirName gff outdir) then fs.dirs
       else fs.dirs ++ [outDirName gff outdir]) := by
  simp only [map_bam2gff_subproc]
  rw [files_mkdir, if_pos hf]
  refine ⟨rfl, rfl, files_mkdir fs _, ?_⟩
  split <;> rfl

/-- Claim C10: even when the destination file exists, the call first creates
the scoped output subdirectory when absent (directory creation precedes the
existence check), and that is the skip path's only file-system effect: files
are unchanged, directories are unchanged except possibly for the one
appended subdirectory, and no subprocess is launched. -/
theorem C10_skip_path_mkdir (env : SubprocEnv) (fs : FsState)
    (bam gff outdir il : String)
    (hf : fs.files.contains (outFileName bam gff outdir) = true) :
    (map_bam2gff_subproc env fs bam gff outdir il).fs.files = fs.files ∧
    (map_bam2gff_subproc env fs bam gff outdir il).fs.dirs =
      (if fs.dirs.contains (outDirName gff outdir) then fs.dirs
       else fs.dirs ++ [outDirName gff outdir]) ∧
    (map_bam2gff_subproc env fs bam gff outdir il).fs.dirs.contains
      (outDirName gff outdir) = true ∧
    (map_bam2gff_subproc env fs bam gff outdir il).events = [] := by
  obtain ⟨he, _, hfl, hdr⟩ := map_bam2gff_skip_spec env fs bam gff outdir il hf
  refine ⟨hfl, hdr, ?_, he⟩
  rw [hdr]
  split
  · assumption
  · simp

/-- Claim C10 witness: a concrete call where the destination file exists but
the scoped directory does not yet exist. -/
theorem C10_skip_path_mkdir_witness :
    (map_bam2gff_subproc ⟨true, [], 0, ""⟩ ⟨[], ["o/bam2gff_g.gff/b.bam"]⟩
        "b.bam" "g.gff" "o" "gff").fs.dirs.contains
      (outDirName "g.gff" "o") = true :=
  (C10_skip_path_mkdir ⟨true, [], 0, ""⟩ ⟨[], ["o/bam2gff_g.gff/b.bam"]⟩
    "b.bam" "g.gff" "o" "gff" (by decide)).2.2.1

/-- Claim C5: when no destination file pre-exists, tagBam resolves, and the
relay loop forwarded zero header lines, the run is treated as an upstream
tagBam failure and aborts fatally without returning an output path.  (In the
source the abort is an uncaught `NameError`: line 196 formats
`tagBam_retval`, which is only assigned later on line 205, so the
`sys.exit(1)` on line 197 is never reached; the run still dies before
returning, after logging "tagBam call failed.".) -/
theorem C5_zero_headers_abort (env : SubprocEnv) (fs : FsState)
    (bam gff outdir il : String)
    (hfile : fs.files.contains (outFileName bam gff outdir) = false)
    (hpath : env.tagBamOnPath = true)
    (hhdr : (countLines il env.tagBamLines).num_headers = 0) :
    (map_bam2gff_subproc env fs bam gff outdir il).outcome = .crashed ∧
    ∀ p, (map_bam2gff_subproc env fs bam gff outdir il).outcome ≠
      .returned p := by
  have hcr : (map_bam2gff_subproc env fs bam gff outdir il).outcome = .crashed := by
    simp only [map_bam2gff_subproc]
    rw [files_mkdir, if_neg (by rw [hfile]; simp), if_neg (by rw [hpath]; simp),
      if_pos hhdr]
  exact ⟨hcr, fun p hp => by rw [hcr] at hp; cases hp⟩

/-- Claim C5 witness: a concrete environment whose tagBam output holds one
read line and no header line. -/
theorem C5_zero_headers_abort_witness :
    (map_bam2gff_subproc ⟨true, ["r1\tx:gff:y"], 0, ""⟩ ⟨[], []⟩ "b.bam"
      "g.gff" "o" "gff").outcome = .crashed :=
  (C5_zero_headers_abort ⟨true, ["r1\tx:gff:y"], 0, ""⟩ ⟨[], []⟩ "b.bam"
    "g.gff" "o" "gff" (by decide) (by decide) (by decide)).1

/-- Claim C6: with headers present, a nonzero encoder exit status aborts the
run (exit code 1) exactly when the encoder's combined output does not contain
`"truncated"`; when it does contain `"truncated"`, the run only warns and
returns the destination path. -/
theorem C6_truncated_tolerated (env : SubprocEnv) (fs : FsState)
    (bam gff outdir il : String)
    (hfile : fs.files.contains (outFileName bam gff outdir) = false)
    (hpath : env.tagBamOnPath = true)
    (hhdr : (countLines il env.tagBamLines).num_headers ≠ 0)
    (hrc : env.bamReturncode ≠ 0) :
    ((map_bam2gff_subproc env fs bam gff outdir il).outcome = .exited 1 ↔
      containsSub env.bamOutput.data "truncated".data = false) ∧
    (containsSub env.bamOutput.data "truncated".data = true →
      (map_bam2gff_subproc env fs bam gff outdir il).outcome =
        .returned (outFileName bam gff outdir)) := by
  have hred : map_bam2gff_subproc env fs bam gff outdir il =
      if containsSub env.bamOutput.data "truncated".data then
        { fs := ⟨(if fs.dirs.contains (outDirName gff outdir) then fs
            else { fs with dirs := fs.dirs ++ [outDirName gff outdir] }).dirs,
            fs.files ++ [outFileName bam gff outdir]⟩,
          events := [Event.launchTagBam, Event.launchEncoder],
          outcome := .returned (outFileName bam gff outdir) }
      else
        { fs := ⟨(if fs.dirs.contains (outDirName gff outdir) then fs
            else { fs with dirs := fs.dirs ++ [outDirName gff outdir] }).dirs,
            fs.files ++ [outFileName bam gff outdir]⟩,
          events := [Event.launchTagBam, Event.launchEncoder],
          outcome := .exited 1 } := by
    simp only [map_bam2gff_subproc]
    rw [files_mkdir, if_neg (by rw [hfile]; simp), if_neg (by rw [hpath]; simp),
      if_neg hhdr, if_pos hrc]
  constructor
  · rw [hred]
    cases htr : containsSub env.bamOutput.data "truncated".data
    · simp
    · simp
  · intro htr
    rw [hred, if_pos htr]

/-- Claim C6 witness: with output containing "truncated" the path is
returned; the equivalence also holds there. -/
theorem C6_truncated_tolerated_witness :
    (map_bam2gff_subproc ⟨true, ["@hdr"], 1, "file is truncated"⟩ ⟨[], []⟩
      "b.bam" "g.gff" "o" "gff").outcome =
      .returned (outFileName "b.bam" "g.gff" "o") :=
  (C6_truncated_tolerated ⟨true, ["@hdr"], 1, "file is truncated"⟩ ⟨[], []⟩
    "b.bam" "g.gff" "o" "gff" (by decide) (by decide) (by decide)
    (by decide)).2 (by decide)

/-- Whenever the call returns a path, that path is the canonical destination
and at that moment the destination file exists and the scoped directory
exists in the resulting state. -/
theorem map_bam2gff_returned_inv (env : SubprocEnv) (fs : FsState)
    (bam gff outdir il p : String)
    (h : (map_bam2gff_subproc env fs bam gff outdir il).outcome = .returned p) :
    p = outFileName bam gff outdir ∧
    (map_bam2gff_subproc env fs bam gff outdir il).fs.dirs.contains
      (outDirName gff outdir) = true ∧
    (map_bam2gff_subproc env fs bam gff outdir il).fs.files.contains
      (outFileName bam gff outdir) = true := by
  simp only [map_bam2gff_subproc] at h ⊢
  rw [files_mkdir] at h ⊢
  split_ifs at h ⊢ with h1 h2 h3 h4 h5
  have hd := dirs_mkdir_contains fs (outDirName gff outdir)
  all_goals simp_all

/-- Claim C4: if the destination file already exists the call returns its
path with no subprocess launched, and the step is idempotent by path: after
any call that returned a path, a second call with the same inputs (under any
subprocess environment) launches nothing and returns the same path,
leaving the file system as the first call left it. -/
theorem C4_idempotent_skip (env env2 : SubprocEnv) (fs : FsState)
    (bam gff outdir il p : String)
    (h : (map_bam2gff_subproc env fs bam gff outdir il).outcome = .returned p) :
    map_bam2gff_subproc env2 (map_bam2gff_subproc env fs bam gff outdir il).fs
        bam gff outdir il =
      ⟨(map_bam2gff_subproc env fs bam gff outdir il).fs, [], .returned p⟩ ∧
    (fs.files.contains (outFileName bam gff outdir) = true →
      (map_bam2gff_subproc env fs bam gff outdir il).events = []) := by
  obtain ⟨hp, hd, hf⟩ := map_bam2gff_returned_inv env fs bam gff outdir il p h
  subst hp
  constructor
  · obtain ⟨he2, ho2, hfl2, hdr2⟩ :=
      map_bam2gff_skip_spec env2 (map_bam2gff_subproc env fs bam gff outdir il).fs
        bam gff outdir il hf
    have hdd : (map_bam2gff_subproc env2
        (map_bam2gff_subproc env fs bam gff outdir il).fs bam gff outdir il).fs.dirs =
        (map_bam2gff_subproc env fs bam gff outdir il).fs.dirs := by
      rw [hdr2, if_pos hd]
    have hfs2 : (map_bam2gff_subproc env2
        (map_bam2gff_subproc env fs bam gff outdir il).fs bam gff outdir il).fs =
        (map_bam2gff_subproc env fs bam gff outdir il).fs := by
      have h1 : (map_bam2gff_subproc env2
          (map_bam2gff_subproc env fs bam gff outdir il).fs bam gff outdir il).fs =
          FsState.mk (map_bam2gff_subproc env2
            (map_bam2gff_subproc env fs bam gff outdir il).fs bam gff outdir il).fs.dirs
          (map_bam2gff_subproc env2
            (map_bam2gff_subproc env fs bam gff outdir il).fs bam gff outdir il).fs.files := rfl
      rw [h1, hdd, hfl2]
    have h2 : map_bam2gff_subproc env2
        (map_bam2gff_subproc env fs bam gff outdir il).fs bam gff outdir il =
        RunResult.mk (map_bam2gff_subproc env2
          (map_bam2gff_subproc env fs bam gff outdir il).fs bam gff outdir il).fs
        (map_bam2gff_subproc env2
          (map_bam2gff_subproc env fs bam gff outdir il).fs bam gff outdir il).events
        (map_bam2gff_subproc env2
          (map_bam2gff_subproc env fs bam gff outdir il).fs bam gff outdir il).outcome := rfl
    rw [h2, hfs2, he2, ho2]
  · intro hskip
    exact (map_bam2gff_skip_spec env fs bam gff outdir il hskip).1

/-- Claim C4 witness: a first call that runs the pipeline and returns, then
checked to be skipped on the resulting state. -/
theorem C4_idempotent_skip_witness :
    map_bam2gff_subproc ⟨false, [], 7, "x"⟩
        (map_bam2gff_subproc ⟨true, ["@hdr"], 0, ""⟩ ⟨[], []⟩ "b.bam" "g.gff"
          "o" "gff").fs "b.bam" "g.gff" "o" "gff" =
      ⟨(map_bam2gff_subproc ⟨true, ["@hdr"], 0, ""⟩ ⟨[], []⟩ "b.bam" "g.gff"
        "o" "gff").fs, [], .returned "o/bam2gff_g.gff/b.bam"⟩ :=
  (C4_idempotent_skip ⟨true, ["@hdr"], 0, ""⟩ ⟨false, [], 7, "x"⟩ ⟨[], []⟩
    "b.bam" "g.gff" "o" "gff" "o/bam2gff_g.gff/b.bam" (by decide)).1

/-- A tagging call emits either no event or exactly the two launch events. -/
theorem map_bam2gff_events_cases (env : SubprocEnv) (fs : FsState)
    (bam gff outdir il : String) :
    (map_bam2gff_subproc env fs bam gff outdir il).events = [] ∨
    (map_bam2gff_subproc env fs bam gff outdir il).events =
      [Event.launchTagBam, Event.launchEncoder] := by
  simp only [map_bam2gff_subproc]
  split_ifs <;> simp

/-- With zero mapped reads the driver loop never emits the RPKM-computation
event, and as soon as one table's tagging call returns (so the mapped-table
event appears in the trace) the run ends with `sys.exit(1)`. -/
theorem output_rpkm_go_zero_mapped (outdir bam : String)
    (tables : List TableEnv) (fs : FsState) (evs : List Event)
    (last : Option String)
    (hout : Event.outputFromBam ∉ evs) (hmap : Event.mappedTable ∉ evs) :
    Event.outputFromBam ∉
      (output_rpkm_go outdir bam 0 tables fs evs last).events ∧
    (Event.mappedTable ∈ (output_rpkm_go outdir bam 0 tables fs evs last).events →
      (output_rpkm_go outdir bam 0 tables fs evs last).outcome = .exited 1) := by
  induction tables generalizing fs evs last with
  | nil =>
    cases last with
    | some p => exact ⟨hout, fun hm => absurd hm hmap⟩
    | none => exact ⟨hout, fun hm => absurd hm hmap⟩
  | cons tbl rest ih =>
    rw [output_rpkm_go]
    by_cases hskip :
        fs.files.contains (outdir ++ "/" ++ tbl.table_name ++ ".rpkm") = true
    · rw [if_pos hskip]
      exact ih _ _ _ (by simp [hout]) (by simp [hmap])
    · rw [if_neg hskip]
      simp only []
      have hev := map_bam2gff_events_cases tbl.subproc
        (if fs.dirs.contains (outdir ++ "/bam2gff_const_exons") then fs
         else { fs with dirs := fs.dirs ++ [outdir ++ "/bam2gff_const_exons"] })
        bam tbl.gff_filename (outdir ++ "/bam2gff_const_exons") "gff"
      have hm1 : Event.mappedTable ∉ (map_bam2gff_subproc tbl.subproc
          (if fs.dirs.contains (outdir ++ "/bam2gff_const_exons") then fs
           else { fs with dirs := fs.dirs ++ [outdir ++ "/bam2gff_const_exons"] })
          bam tbl.gff_filename (outdir ++ "/bam2gff_const_exons") "gff").events := by
        rcases hev with h | h <;> rw [h] <;> simp
      have hm2 : Event.outputFromBam ∉ (map_bam2gff_subproc tbl.subproc
          (if fs.dirs.contains (outdir ++ "/bam2gff_const_exons") then fs
           else { fs with dirs := fs.dirs ++ [outdir ++ "/bam2gff_const_exons"] })
          bam tbl.gff_filename (outdir ++ "/bam2gff_const_exons") "gff").events := by
        rcases hev with h | h <;> rw [h] <;> simp
      cases hsub : (map_bam2gff_subproc tbl.subproc
          (if fs.dirs.contains (outdir ++ "/bam2gff_const_exons") then fs
           else { fs with dirs := fs.dirs ++ [outdir ++ "/bam2gff_const_exons"] })
          bam tbl.gff_filename (outdir ++ "/bam2gff_const_exons") "gff").outcome with
      | exited c =>
        simp only []
        constructor
        · simp only [List.mem_append]
          intro hm
          rcases hm with hm | hm
          · exact hout hm
          · exact hm2 hm
        · intro hm
          simp only [List.mem_append] at hm
          rcases hm with hm | hm
          · exact absurd hm hmap
          · exact absurd hm hm1
      | crashed =>
        simp only []
        constructor
        · simp only [List.mem_append]
          intro hm
          rcases hm with hm | hm
          · exact hout hm
          · exact hm2 hm
        · intro hm
          simp only [List.mem_append] at hm
          rcases hm with hm | hm
          · exact absurd hm hmap
          · exact absurd hm hm1
      | returned q =>
        constructor
        · show Event.outputFromBam ∉ evs ++ (map_bam2gff_subproc tbl.subproc
            (if fs.dirs.contains (outdir ++ "/bam2gff_const_exons") then fs
             else { fs with dirs := fs.dirs ++ [outdir ++ "/bam2gff_const_exons"] })
            bam tbl.gff_filename (outdir ++ "/bam2gff_const_exons") "gff").events ++
            [Event.mappedTable]
          simp only [List.mem_append, List.mem_singleton]
          rintro ((hm | hm) | hm)
          · exact hout hm
          · exact hm2 hm
          · exact Event.noConfusion hm
        · intro _
          rfl

/-- Claim C7: with a zero total mapped-read count, `output_rpkm` never
reaches the RPKM-computation call (no `outputFromBam` event, hence no
`compute_rpkm` invocation and no table written), and whenever a table's
tagging step completes (a `mappedTable` event is in the trace, the only
situation in which computation would follow), the run aborts with
`sys.exit(1)` at the mapped-read check instead. -/
theorem C7_zero_mapped_reads (tables : List TableEnv)
    (output_dir ribosub_bam : String) (fs : FsState) :
    Event.outputFromBam ∉
      (output_rpkm tables output_dir ribosub_bam 0 fs).events ∧
    (Event.mappedTable ∈ (output_rpkm tables output_dir ribosub_bam 0 fs).events →
      (output_rpkm tables output_dir ribosub_bam 0 fs).outcome = .exited 1) :=
  output_rpkm_go_zero_mapped output_dir ribosub_bam tables fs [] none
    (by simp) (by simp)
